import Mathlib

set_option maxHeartbeats 1000000
set_option maxRecDepth 4000

/-!
Formalisation of the Crazy-Sevens card-game engine of `src/src/App.tsx`
(the "Jack 77" React component), as a shallow embedding: each React
event handler becomes a pure function from the component's state record
to the next state record.  `Option` marks the inputs on which the
JavaScript handler would throw (reading a field of `undefined`), so
`none` models a crash and `some s` a completed handler run.  The
Sum-Match engine described by the specification has no source file in
the repository snapshot; it is modelled from the specification near the
end of the definitions, and marked as such.
-/

namespace Jack77

/-- The four suits, in the order of the source's `SUITS` constant. -/
inductive Suit where
  | hearts
  | diamonds
  | clubs
  | spades
deriving DecidableEq, Repr

/-- The thirteen ranks, in the order of the source's `RANKS` constant. -/
inductive Rank where
  | A
  | R2
  | R3
  | R4
  | R5
  | R6
  | R7
  | R8
  | R9
  | R10
  | J
  | Q
  | K
deriving DecidableEq, Repr

def suitStr : Suit → String
  | .hearts => "hearts"
  | .diamonds => "diamonds"
  | .clubs => "clubs"
  | .spades => "spades"

def rankStr : Rank → String
  | .A => "A"
  | .R2 => "2"
  | .R3 => "3"
  | .R4 => "4"
  | .R5 => "5"
  | .R6 => "6"
  | .R7 => "7"
  | .R8 => "8"
  | .R9 => "9"
  | .R10 => "10"
  | .J => "J"
  | .Q => "Q"
  | .K => "K"

/-- A card: `id`, `suit`, `rank` as in the source's `Card` interface. -/
structure Card where
  id : String
  suit : Suit
  rank : Rank
deriving DecidableEq, Repr

def SUITS : List Suit := [.hearts, .diamonds, .clubs, .spades]

def RANKS : List Rank :=
  [.A, .R2, .R3, .R4, .R5, .R6, .R7, .R8, .R9, .R10, .J, .Q, .K]

def WILD_RANK : Rank := .R7

/-- `createDeck` of the source: all 52 suit/rank pairs, suit-major, with
the id built from the template rank-suit. -/
def createDeck : List Card :=
  (SUITS.map (fun su =>
    RANKS.map (fun r =>
      { id := rankStr r ++ "-" ++ suitStr su, suit := su, rank := r }))).flatten

inductive Turn where
  | player
  | ai
deriving DecidableEq, Repr

inductive Phase where
  | start
  | playing
  | gameOver
deriving DecidableEq, Repr

def other : Turn → Turn
  | .player => .ai
  | .ai => .player

/-- The React component's state hooks, gathered into one record.  The
`message` string is part of the component state and is tracked so that
"no state change" means exactly that. -/
structure GameState where
  deck : List Card
  playerHand : List Card
  aiHand : List Card
  discardPile : List Card
  currentSuit : Option Suit
  turn : Turn
  gameState : Phase
  winner : Option Turn
  showSuitPicker : Bool
  message : String
deriving DecidableEq, Repr

def hand (s : GameState) : Turn → List Card
  | .player => s.playerHand
  | .ai => s.aiHand

/-- JavaScript `Array.findIndex`, with `none` in place of `-1`. -/
def findIdxA {α : Type} (p : α → Bool) : List α → Option Nat
  | [] => none
  | a :: l => if p a then some 0 else (findIdxA p l).map (· + 1)

/-- `initGame` of the source.  The result of the Fisher-Yates `shuffle`
arrives as the argument `fullDeck` (the shuffle itself is the game's
only randomness, so theorems quantify over permutations of `createDeck`
instead).  `slice(16,17)[0]` of a list with at most 16 cards would be
`undefined`, hence the `none` branch; with the full deck it never
fires. -/
def initGame (fullDeck : List Card) : Option GameState :=
  match fullDeck.drop 16 with
  | [] => none
  | initialDiscard :: remainingDeck =>
    let pHand := fullDeck.take 8
    let aHand := (fullDeck.drop 8).take 8
    let swapped : List Card × Card :=
      if initialDiscard.rank = WILD_RANK then
        match findIdxA (fun c => decide (c.rank ≠ WILD_RANK)) remainingDeck with
        | some i =>
          (remainingDeck.set i initialDiscard, (remainingDeck.get? i).getD initialDiscard)
        | none => (remainingDeck, initialDiscard)
      else (remainingDeck, initialDiscard)
    some
      { deck := swapped.1
        playerHand := pHand
        aiHand := aHand
        discardPile := [swapped.2]
        currentSuit := some swapped.2.suit
        turn := .player
        gameState := .playing
        winner := none
        showSuitPicker := false
        message := "Your turn! Match suit or rank." }

/-- The legality check at the top of `playCard`:
`!isWild && card.suit !== currentSuit && card.rank !== topCard.rank`.
Reading `topCard.rank` throws when the discard pile is empty, but the
`&&` short-circuit only reaches it when the card is neither wild nor
suit-matching; `none` models that crash. -/
def playLegal (s : GameState) (card : Card) : Option Bool :=
  if card.rank = WILD_RANK then some true
  else if some card.suit = s.currentSuit then some true
  else
    match s.discardPile.getLast? with
    | none => none
    | some top => some (decide (card.rank = top.rank))

/-- The tail of `playCard` after the hand update, for a play that did
not empty the hand: push the card on the discard pile, then branch on
wild/suit. -/
def afterPlay (s : GameState) (card : Card) (who : Turn) (newSuit : Option Suit) :
    GameState :=
  let s1 := { s with discardPile := s.discardPile ++ [card] }
  if card.rank = WILD_RANK then
    match newSuit with
    | some ns =>
      { s1 with
        currentSuit := some ns
        message := (if who = .player then "You" else "AI") ++
          " played a 7 and changed suit to " ++ suitStr ns ++ "!"
        turn := other who }
    | none => { s1 with showSuitPicker := true }
  else
    { s1 with
      currentSuit := some card.suit
      message := (if who = .player then "You" else "AI") ++ " played " ++
        rankStr card.rank ++ " of " ++ suitStr card.suit ++ "."
      turn := other who }

/-- The body of `playCard` past the legality check.  `checkWin` is
inlined: when the filtered hand is empty the handler sets the phase and
winner and returns at once, before the discard-pile push. -/
def executePlay (s : GameState) (card : Card) (who : Turn) (newSuit : Option Suit) :
    GameState :=
  match who with
  | .player =>
    let newHand := s.playerHand.filter (fun c => c.id ≠ card.id)
    if newHand.isEmpty then
      { s with playerHand := newHand, gameState := .gameOver, winner := some .player }
    else afterPlay { s with playerHand := newHand } card who newSuit
  | .ai =>
    let newHand := s.aiHand.filter (fun c => c.id ≠ card.id)
    if newHand.isEmpty then
      { s with aiHand := newHand, gameState := .gameOver, winner := some .ai }
    else afterPlay { s with aiHand := newHand } card who newSuit

/-- `playCard` of the source: a silent early return (`some s`) on a
failed legality check, the play otherwise. -/
def playCard (s : GameState) (card : Card) (who : Turn) (newSuit : Option Suit) :
    Option GameState :=
  match playLegal s card with
  | none => none
  | some false => some s
  | some true => some (executePlay s card who newSuit)

/-- The middle of `drawCard`: pop the front card into the actor's hand
and set the matching message. -/
def addDraw (s : GameState) (who : Turn) (newCard : Card) (remainingDeck : List Card) :
    GameState :=
  match who with
  | .player =>
    { s with
      deck := remainingDeck
      playerHand := s.playerHand ++ [newCard]
      message := "You drew a card." }
  | .ai =>
    { s with
      deck := remainingDeck
      aiHand := s.aiHand ++ [newCard]
      message := "AI drew a card." }

/-- `drawCard` of the source: an empty deck skips the turn; otherwise
the front card moves into the actor's hand and the turn passes exactly
when the drawn card is not playable.  Reading `topCard.rank` throws on
an empty discard pile unless short-circuited. -/
def drawCard (s : GameState) (who : Turn) : Option GameState :=
  match s.deck with
  | [] => some { s with message := "Deck is empty! Turn skipped.", turn := other who }
  | newCard :: remainingDeck =>
    let s1 := addDraw s who newCard remainingDeck
    if newCard.rank = WILD_RANK ∨ some newCard.suit = s.currentSuit then some s1
    else
      match s.discardPile.getLast? with
      | none => none
      | some top =>
        if newCard.rank = top.rank then some s1
        else some { s1 with turn := other who }

/-- The suit-picker button's onClick handler: set the chosen suit,
close the picker, hand the turn to the AI. -/
def resolveWild (s : GameState) (suit : Suit) : GameState :=
  { s with
    currentSuit := some suit
    showSuitPicker := false
    message := "You changed the suit to " ++ suitStr suit ++ "!"
    turn := .ai }

/-- `suitCounts[su]` of the AI effect: how many non-wild cards of suit
`su` the hand holds. -/
def suitCount (h : List Card) (su : Suit) : Nat :=
  (h.filter (fun c => decide (c.rank ≠ WILD_RANK ∧ c.suit = su))).length

/-- The AI's `bestSuit`: `Object.keys(suitCounts).reduce((a, b) =>
suitCounts[a] > suitCounts[b] ? a : b)`, with the keys in insertion
order hearts, diamonds, clubs, spades. -/
def bestSuit (h : List Card) : Suit :=
  List.foldl (fun a b => if suitCount h a > suitCount h b then a else b)
    Suit.hearts [Suit.diamonds, Suit.clubs, Suit.spades]

/-- Position of a suit in the source's `SUITS` enumeration order. -/
def suitIdx : Suit → Nat
  | .hearts => 0
  | .diamonds => 1
  | .clubs => 2
  | .spades => 3

/-- The body of the AI timeout in the `useEffect`: first matching
normal card, else first wild with `bestSuit`, else draw.  The effect
reads `topCard.rank` inside the `find` callback, hence the `none`
branch for an empty discard pile. -/
def aiMove (s : GameState) : Option GameState :=
  match s.discardPile.getLast? with
  | none => none
  | some topCard =>
    match s.aiHand.find? (fun c =>
        decide (c.rank ≠ WILD_RANK ∧
          (some c.suit = s.currentSuit ∨ c.rank = topCard.rank))) with
    | some c => playCard s c .ai none
    | none =>
      match s.aiHand.find? (fun c => decide (c.rank = WILD_RANK)) with
      | some w => playCard s w .ai (some (bestSuit s.aiHand))
      | none => drawCard s .ai

/-- One engine event as dispatchable against the component: a play of a
card held by the named side (the handler itself checks neither turn,
phase nor the pending-wild flag), a draw by either side, or the suit
picker resolving a pending wild. -/
inductive Step : GameState → GameState → Prop where
  | play (s : GameState) (card : Card) (who : Turn) (newSuit : Option Suit)
      (s' : GameState) :
      card ∈ hand s who → playCard s card who newSuit = some s' → Step s s'
  | draw (s : GameState) (who : Turn) (s' : GameState) :
      drawCard s who = some s' → Step s s'
  | resolve (s : GameState) (suit : Suit) :
      s.showSuitPicker = true → Step s (resolveWild s suit)

/-- States reachable from a deal of some shuffle of the full deck. -/
inductive Reachable : GameState → Prop where
  | init (d : List Card) (s : GameState) :
      List.Perm d createDeck → initGame d = some s → Reachable s
  | step (s s' : GameState) : Reachable s → Step s s' → Reachable s'

/-- All cards owned by the four collections of a state, as a multiset. -/
def stateCards (s : GameState) : Multiset Card :=
  (s.deck : Multiset Card) + (s.playerHand : Multiset Card) +
    (s.aiHand : Multiset Card) + (s.discardPile : Multiset Card)


/-- Modelled from the spec: the tie-break the specification prescribes
for the AI's wild-suit choice, "the first suit reaching the maximum in
a fixed suit enumeration order".  It exists only to be compared with
the source's `bestSuit`. -/
def specFirstMaxSuit (h : List Card) : Suit :=
  List.foldl (fun a b => if suitCount h b > suitCount h a then b else a)
    Suit.hearts [Suit.diamonds, Suit.clubs, Suit.spades]

/-- A blank state, used only as the default of `Option.getD` when
naming the result of a handler that provably succeeds. -/
def dummy : GameState :=
  { deck := [], playerHand := [], aiHand := [], discardPile := [], currentSuit := none,
    turn := .player, gameState := .start, winner := none, showSuitPicker := false,
    message := "" }

/-- The state a successful `playCard` call leads to. -/
def stepPlay (s : GameState) (c : Card) (who : Turn) (ns : Option Suit) : GameState :=
  (playCard s c who ns).getD s

def cardAH : Card := { id := "A-hearts", suit := .hearts, rank := .A }
def card2H : Card := { id := "2-hearts", suit := .hearts, rank := .R2 }
def card3H : Card := { id := "3-hearts", suit := .hearts, rank := .R3 }
def card4H : Card := { id := "4-hearts", suit := .hearts, rank := .R4 }
def card5H : Card := { id := "5-hearts", suit := .hearts, rank := .R5 }
def card6H : Card := { id := "6-hearts", suit := .hearts, rank := .R6 }
def card7H : Card := { id := "7-hearts", suit := .hearts, rank := .R7 }
def card8H : Card := { id := "8-hearts", suit := .hearts, rank := .R8 }
def card9H : Card := { id := "9-hearts", suit := .hearts, rank := .R9 }
def cardAD : Card := { id := "A-diamonds", suit := .diamonds, rank := .A }
def card2D : Card := { id := "2-diamonds", suit := .diamonds, rank := .R2 }
def card9D : Card := { id := "9-diamonds", suit := .diamonds, rank := .R9 }
def card2S : Card := { id := "2-spades", suit := .spades, rank := .R2 }
def card7S : Card := { id := "7-spades", suit := .spades, rank := .R7 }
def cardAS : Card := { id := "A-spades", suit := .spades, rank := .A }
def cardKC : Card := { id := "K-clubs", suit := .clubs, rank := .K }

/-- The deal of the unshuffled deck: the player holds hearts A-8, the
AI hearts 9-K and diamonds A-3, the discard is the 4 of diamonds. -/
def s0 : GameState := (initGame createDeck).getD dummy

/-- A concrete game: the player plays the 4 of hearts on the 4 of
diamonds (rank match), then runs down the hearts, and finally wins by
playing the wild 7 of hearts from a one-card hand. -/
def s1 : GameState := stepPlay s0 card4H .player none
def s2 : GameState := stepPlay s1 cardAH .player none
def s3 : GameState := stepPlay s2 card2H .player none
def s4 : GameState := stepPlay s3 card3H .player none
def s5 : GameState := stepPlay s4 card5H .player none
def s6 : GameState := stepPlay s5 card6H .player none
def s7 : GameState := stepPlay s6 card8H .player none
def sWin : GameState := stepPlay s7 card7H .player none

/-- From the same deal: the player plays the wild 7 of hearts without a
suit, leaving the engine pending on the suit picker. -/
def pendX : GameState := stepPlay s0 card7H .player none

/-- A play by the AI fired into the pending state: the ace of diamonds
matches the still-unchanged active suit and goes through. -/
def pendY : GameState := stepPlay pendX cardAD .ai none

/-- A play by the AI fired into the game-over state `sWin`: the nine of
hearts matches the active suit and goes through. -/
def postWin : GameState := stepPlay sWin card9H .ai none

/-- A playing state in which the player's whole hand is the wild 7 of
hearts. -/
def c2pre : GameState :=
  { deck := [], playerHand := [card7H], aiHand := [cardAD], discardPile := [cardKC],
    currentSuit := some .clubs, turn := .player, gameState := .playing, winner := none,
    showSuitPicker := false, message := "" }

def c2post : GameState := stepPlay c2pre card7H .player none

/-- A playing state in which the player's whole hand is the wild 7 of
spades. -/
def c9pre : GameState :=
  { deck := [cardAS], playerHand := [card7S], aiHand := [card2D], discardPile := [cardKC],
    currentSuit := some .clubs, turn := .player, gameState := .playing, winner := none,
    showSuitPicker := false, message := "" }

def c9post : GameState := stepPlay c9pre card7S .player none

/-- A playing state on the AI's turn where the AI holds no playable
normal card, one wild, and one heart and one diamond: the suit counts
tie at one each. -/
def c8pre : GameState :=
  { deck := [], playerHand := [cardKC], aiHand := [card7H, card2H, card2D],
    discardPile := [cardAS], currentSuit := some .clubs, turn := .ai,
    gameState := .playing, winner := none, showSuitPicker := false, message := "" }

def c8post : GameState := (aiMove c8pre).getD dummy

/-- The spec's own worked example for an illegal play: top discard nine
of diamonds, active suit diamonds, and the two of spades in hand. -/
def c3st : GameState :=
  { deck := [cardAS], playerHand := [card2S], aiHand := [card2D], discardPile := [card9D],
    currentSuit := some .diamonds, turn := .player, gameState := .playing, winner := none,
    showSuitPicker := false, message := "" }

/-- A playing state used to exercise `drawCard`: the two of spades on
top of the deck is not playable against diamonds and a nine. -/
def c7st : GameState :=
  { deck := [card2S], playerHand := [cardAH], aiHand := [card2D], discardPile := [card9D],
    currentSuit := some .diamonds, turn := .player, gameState := .playing, winner := none,
    showSuitPicker := false, message := "" }

def card2C : Card := { id := "2-clubs", suit := .clubs, rank := .R2 }
def card3D : Card := { id := "3-diamonds", suit := .diamonds, rank := .R3 }

/-- The spec's worked example for the AI: opponent hand 3 of hearts,
7 of spades, 5 of hearts; active suit clubs; discard-top rank 3. -/
def c8w : GameState :=
  { deck := [], playerHand := [cardKC], aiHand := [card3H, card7S, card5H],
    discardPile := [card3D], currentSuit := some .clubs, turn := .ai,
    gameState := .playing, winner := none, showSuitPicker := false, message := "" }

/-- A cell of the Sum-Match board: identity, value, grid position. -/
structure SMCell where
  id : Nat
  value : Nat
  row : Nat
  col : Nat
deriving DecidableEq, Repr

inductive SMMode where
  | classic
  | timed
deriving DecidableEq, Repr

inductive SMStatus where
  | start
  | playing
  | paused
  | gameOver
deriving DecidableEq, Repr

/-- The Sum-Match engine state, as the specification describes it. -/
structure SMState where
  mode : SMMode
  board : List SMCell
  target : Nat
  selection : List Nat
  score : Nat
  level : Nat
  status : SMStatus
  countdown : Nat
deriving DecidableEq, Repr

/-- Flip membership of a cell id in the selection. -/
def smFlip (sel : List Nat) (cid : Nat) : List Nat :=
  if cid ∈ sel then sel.filter (fun x => x ≠ cid) else sel ++ [cid]

/-- Sum of the values of the selected cells on the board. -/
def smSelSum (board : List SMCell) (sel : List Nat) : Nat :=
  ((board.filter (fun c => c.id ∈ sel)).map (fun c => c.value)).sum

/-- Shift a cell one row up, as a row spawn does to survivors. -/
def smBump (c : SMCell) : SMCell := { c with row := c.row + 1 }

/-- Modelled from the spec: `toggleCell` of the Sum-Match engine, whose
source file is missing from the repository snapshot (src/ holds only
the Crazy-Sevens component).  Effective only while playing; flips the
id in the selection, then compares the selection sum with the target:
on a match it awards length * 10 * level points, removes the selected
cells, clears the selection, installs the freshly drawn target, applies
the lagging level-up check against the pre-match score, and spawns a
row (classic) or resets the countdown (timed); an overshoot clears the
selection; an undershoot just keeps it.  The randomness (new target,
spawned row) is injected through the arguments. -/
def toggleCell (s : SMState) (cid : Nat) (newTarget : Nat) (newRow : List SMCell) :
    SMState :=
  if s.status ≠ SMStatus.playing then s
  else
    let sel := smFlip s.selection cid
    let total := smSelSum s.board sel
    if total = s.target then
      { s with
        board :=
          match s.mode with
          | .classic => (s.board.filter (fun c => c.id ∉ sel)).map smBump ++ newRow
          | .timed => s.board.filter (fun c => c.id ∉ sel)
        selection := []
        target := newTarget
        score := s.score + sel.length * 10 * s.level
        level := if s.score > s.level * 500 then s.level + 1 else s.level
        countdown :=
          match s.mode with
          | .classic => s.countdown
          | .timed => max 5 (15 - s.level / 2) }
    else if total > s.target then { s with selection := [] }
    else { s with selection := sel }

/-- A concrete Sum-Match state matching the spec's worked example: three
cells valued 3, 5, 2 with target 10, two already selected. -/
def smW : SMState :=
  { mode := .classic, board := [⟨0, 3, 0, 0⟩, ⟨1, 5, 0, 1⟩, ⟨2, 2, 0, 2⟩],
    target := 10, selection := [0, 1], score := 0, level := 1, status := .playing,
    countdown := 15 }


lemma createDeck_nodup : createDeck.Nodup := by decide

lemma createDeck_id_inj :
    ∀ c ∈ createDeck, ∀ c' ∈ createDeck, c.id = c'.id → c = c' := by decide

lemma findIdxA_none {α : Type} (p : α → Bool) :
    ∀ l : List α, findIdxA p l = none → ∀ x ∈ l, p x = false := by
  intro l
  induction l with
  | nil => intro _ x hx; cases hx
  | cons a l ih =>
    intro h x hx
    simp only [findIdxA] at h
    by_cases hpa : p a
    · simp [hpa] at h
    · simp [hpa, Option.map_eq_none'] at h
      rcases List.mem_cons.1 hx with rfl | hx
      · exact Bool.eq_false_iff.2 hpa
      · exact ih h x hx

lemma findIdxA_set {α : Type} [DecidableEq α] (p : α → Bool) (x : α) :
    ∀ (l : List α) (i : Nat), findIdxA p l = some i →
      ∃ c, l.get? i = some c ∧ p c = true ∧
        ((l.set i x : List α) : Multiset α) + {c} = (l : Multiset α) + {x} := by
  intro l
  induction l with
  | nil => intro i h; simp [findIdxA] at h
  | cons a l ih =>
    intro i h
    simp only [findIdxA] at h
    by_cases hpa : p a
    · simp [hpa] at h
      subst h
      refine ⟨a, rfl, hpa, ?_⟩
      show ((x :: l : List α) : Multiset α) + {a} = ((a :: l : List α) : Multiset α) + {x}
      simp only [← Multiset.cons_coe]
      rw [add_comm, Multiset.singleton_add, add_comm, Multiset.singleton_add,
        Multiset.cons_swap]
    · simp [hpa, Option.map_eq_some'] at h
      rcases h with ⟨j, hj, rfl⟩
      rcases ih j hj with ⟨c, hc1, hc2, hc3⟩
      refine ⟨c, by simpa using hc1, hc2, ?_⟩
      show ((a :: l.set j x : List α) : Multiset α) + {c} =
        ((a :: l : List α) : Multiset α) + {x}
      simp only [← Multiset.cons_coe, Multiset.cons_add]
      rw [hc3]

lemma find?_split {α : Type} (p : α → Bool) :
    ∀ (l : List α) (c : α), l.find? p = some c →
      ∃ pre post, l = pre ++ c :: post ∧ p c = true ∧ ∀ x ∈ pre, p x = false := by
  intro l
  induction l with
  | nil => intro c h; simp [List.find?] at h
  | cons a l ih =>
    intro c h
    by_cases hpa : p a
    · rw [List.find?_cons_of_pos _ hpa] at h
      cases h
      exact ⟨[], l, rfl, hpa, by simp⟩
    · rw [List.find?_cons_of_neg _ hpa] at h
      rcases ih c h with ⟨pre, post, rfl, hc, hpre⟩
      refine ⟨a :: pre, post, rfl, hc, ?_⟩
      intro x hx
      rcases List.mem_cons.1 hx with rfl | hx
      · exact Bool.eq_false_iff.2 hpa
      · exact hpre x hx

lemma filter_id_multiset (h : List Card) (card : Card)
    (hmem : card ∈ h) (hnd : h.Nodup)
    (hinj : ∀ x ∈ h, x.id = card.id → x = card) :
    ((h.filter (fun c => c.id ≠ card.id) : List Card) : Multiset Card) + {card} =
      (h : Multiset Card) := by
  have hf : h.filter (fun c => c.id ≠ card.id) = h.filter (fun c => c != card) := by
    apply List.filter_congr
    intro x hx
    by_cases hxc : x = card
    · subst hxc; simp
    · have hne : x.id ≠ card.id := fun he => hxc (hinj x hx he)
      simp [hxc, hne]
  rw [hf, ← List.Nodup.erase_eq_filter hnd, ← Multiset.coe_erase,
    add_comm, Multiset.singleton_add]
  exact Multiset.cons_erase (Multiset.mem_coe.2 hmem)

lemma hand_le_stateCards (s : GameState) (who : Turn) :
    ((hand s who : List Card) : Multiset Card) ≤ stateCards s := by
  cases who <;> simp only [hand, stateCards] <;>
    [exact le_trans (le_trans (self_le_add_left _ _) (self_le_add_right _ _))
      (self_le_add_right _ _);
     exact le_trans (self_le_add_left _ _) (self_le_add_right _ _)]

lemma executePlay_win (s : GameState) (card : Card) (who : Turn) (ns : Option Suit)
    (h : (hand s who).filter (fun c => c.id ≠ card.id) = []) :
    (executePlay s card who ns).deck = s.deck ∧
    hand (executePlay s card who ns) who = [] ∧
    hand (executePlay s card who ns) (other who) = hand s (other who) ∧
    (executePlay s card who ns).discardPile = s.discardPile ∧
    (executePlay s card who ns).currentSuit = s.currentSuit ∧
    (executePlay s card who ns).turn = s.turn ∧
    (executePlay s card who ns).gameState = .gameOver ∧
    (executePlay s card who ns).winner = some who ∧
    (executePlay s card who ns).showSuitPicker = s.showSuitPicker ∧
    (executePlay s card who ns).message = s.message := by
  cases who <;> simp only [hand] at h ⊢ <;> simp only [executePlay, h] <;> simp [hand, other]

lemma executePlay_cont (s : GameState) (card : Card) (who : Turn) (ns : Option Suit)
    (h : (hand s who).filter (fun c => c.id ≠ card.id) ≠ []) :
    (executePlay s card who ns).deck = s.deck ∧
    hand (executePlay s card who ns) who = (hand s who).filter (fun c => c.id ≠ card.id) ∧
    hand (executePlay s card who ns) (other who) = hand s (other who) ∧
    (executePlay s card who ns).discardPile = s.discardPile ++ [card] ∧
    (executePlay s card who ns).gameState = s.gameState ∧
    (executePlay s card who ns).winner = s.winner ∧
    (card.rank = WILD_RANK → ns = none →
      (executePlay s card who ns).turn = s.turn ∧
      (executePlay s card who ns).showSuitPicker = true ∧
      (executePlay s card who ns).currentSuit = s.currentSuit ∧
      (executePlay s card who ns).message = s.message) ∧
    (∀ x, card.rank = WILD_RANK → ns = some x →
      (executePlay s card who ns).turn = other who ∧
      (executePlay s card who ns).currentSuit = some x ∧
      (executePlay s card who ns).showSuitPicker = s.showSuitPicker) ∧
    (card.rank ≠ WILD_RANK →
      (executePlay s card who ns).turn = other who ∧
      (executePlay s card who ns).currentSuit = some card.suit ∧
      (executePlay s card who ns).showSuitPicker = s.showSuitPicker) := by
  have hE : ((hand s who).filter (fun c => c.id ≠ card.id)).isEmpty = false := by
    cases hl : (hand s who).filter (fun c => c.id ≠ card.id) with
    | nil => exact absurd hl h
    | cons a l => rfl
  cases who <;> simp only [hand] at hE ⊢ <;>
    simp only [executePlay, hE, Bool.false_eq_true, if_false] <;>
    by_cases hw : card.rank = WILD_RANK <;> cases ns <;>
    simp_all [afterPlay, hand, other]

lemma playCard_legal (s : GameState) (card : Card) (who : Turn) (ns : Option Suit)
    (h : playLegal s card = some true) :
    playCard s card who ns = some (executePlay s card who ns) := by
  simp [playCard, h]

lemma playCard_some (s : GameState) (card : Card) (who : Turn) (ns : Option Suit)
    (s' : GameState) (h : playCard s card who ns = some s') :
    s' = s ∨ (playLegal s card = some true ∧ s' = executePlay s card who ns) := by
  unfold playCard at h
  cases hl : playLegal s card with
  | none => rw [hl] at h; cases h
  | some b =>
    rw [hl] at h
    cases b
    · exact Or.inl (Option.some.inj h).symm
    · exact Or.inr ⟨rfl, (Option.some.inj h).symm⟩

lemma addDraw_cards (s : GameState) (who : Turn) (c : Card) (rest : List Card)
    (hd : s.deck = c :: rest) :
    stateCards (addDraw s who c rest) = stateCards s := by
  cases who <;>
    · simp only [addDraw, stateCards, hd]
      simp only [Multiset.coe_add]
      rw [Multiset.coe_eq_coe, List.perm_iff_count]
      intro a
      simp only [List.count_append, List.count_cons, List.count_nil]
      split_ifs <;> omega

lemma addDraw_fields (s : GameState) (who : Turn) (c : Card) (rest : List Card) :
    (addDraw s who c rest).deck = rest ∧
    hand (addDraw s who c rest) who = hand s who ++ [c] ∧
    hand (addDraw s who c rest) (other who) = hand s (other who) ∧
    (addDraw s who c rest).discardPile = s.discardPile ∧
    (addDraw s who c rest).currentSuit = s.currentSuit ∧
    (addDraw s who c rest).turn = s.turn ∧
    (addDraw s who c rest).gameState = s.gameState ∧
    (addDraw s who c rest).winner = s.winner ∧
    (addDraw s who c rest).showSuitPicker = s.showSuitPicker := by
  cases who <;> simp [addDraw, hand, other]

lemma drawCard_nil (s : GameState) (who : Turn) (hd : s.deck = []) :
    drawCard s who =
      some { s with message := "Deck is empty! Turn skipped.", turn := other who } := by
  unfold drawCard
  rw [hd]

lemma drawCard_cons (s : GameState) (who : Turn) (c : Card) (rest : List Card) (top : Card)
    (hd : s.deck = c :: rest) (htop : s.discardPile.getLast? = some top) :
    drawCard s who = some (
      if c.rank = WILD_RANK ∨ some c.suit = s.currentSuit ∨ c.rank = top.rank
      then addDraw s who c rest
      else { addDraw s who c rest with turn := other who }) := by
  unfold drawCard
  rw [hd]
  by_cases h1 : c.rank = WILD_RANK ∨ some c.suit = s.currentSuit
  · rcases h1 with h1 | h1 <;> simp [h1]
  · have h1' := not_or.1 h1
    by_cases h2 : c.rank = top.rank <;> simp [h1'.1, h1'.2, htop, h2]

lemma drawCard_crash (s : GameState) (who : Turn) (c : Card) (rest : List Card)
    (hd : s.deck = c :: rest)
    (h1 : ¬(c.rank = WILD_RANK ∨ some c.suit = s.currentSuit))
    (htop : s.discardPile.getLast? = none) :
    drawCard s who = none := by
  have h1' := not_or.1 h1
  unfold drawCard
  rw [hd]
  simp [h1'.1, h1'.2, htop]

lemma drawCard_collections (s : GameState) (who : Turn) (s' : GameState)
    (h : drawCard s who = some s') :
    stateCards s' = stateCards s ∧ s'.gameState = s.gameState := by
  cases hd : s.deck with
  | nil =>
    rw [drawCard_nil s who hd] at h
    cases h
    exact ⟨by simp [stateCards, hd], rfl⟩
  | cons c rest =>
    by_cases h1 : c.rank = WILD_RANK ∨ some c.suit = s.currentSuit
    · have heq : drawCard s who = some (addDraw s who c rest) := by
        unfold drawCard
        rw [hd]
        rcases h1 with h1 | h1 <;> simp [h1]
      rw [heq] at h
      cases h
      exact ⟨addDraw_cards s who c rest hd, by cases who <;> rfl⟩
    · cases htop : s.discardPile.getLast? with
      | none => rw [drawCard_crash s who c rest hd h1 htop] at h; cases h
      | some top =>
        rw [drawCard_cons s who c rest top hd htop] at h
        cases h
        split
        · exact ⟨addDraw_cards s who c rest hd, by cases who <;> rfl⟩
        · exact ⟨addDraw_cards s who c rest hd, by cases who <;> rfl⟩

lemma coe_snoc_cons (l : List Card) (a : Card) :
    ((l : Multiset Card) + ↑[a]) = ((a :: l : List Card) : Multiset Card) := by
  simp only [Multiset.coe_singleton]
  rw [add_comm, Multiset.singleton_add, Multiset.cons_coe]

lemma initGame_fields (d : List Card) (s : GameState) (h : initGame d = some s) :
    s.playerHand = d.take 8 ∧ s.aiHand = (d.drop 8).take 8 ∧
    s.turn = .player ∧ s.gameState = .playing ∧ s.winner = none ∧
    s.showSuitPicker = false ∧
    (∃ c, s.discardPile = [c] ∧ s.currentSuit = some c.suit) ∧
    (s.deck : Multiset Card) + (s.discardPile : Multiset Card) =
      ((d.drop 16 : List Card) : Multiset Card) := by
  unfold initGame at h
  cases hd : d.drop 16 with
  | nil => rw [hd] at h; cases h
  | cons fd rest =>
    rw [hd] at h
    by_cases hw : fd.rank = WILD_RANK
    · cases hfi : findIdxA (fun c => decide (c.rank ≠ WILD_RANK)) rest with
      | none =>
        simp only [hw, if_pos, hfi] at h
        cases h
        refine ⟨rfl, rfl, rfl, rfl, rfl, rfl, ⟨fd, rfl, rfl⟩, ?_⟩
        exact coe_snoc_cons rest fd
      | some i =>
        rcases findIdxA_set (fun c => decide (c.rank ≠ WILD_RANK)) fd rest i hfi with
          ⟨c, hc1, hc2, hc3⟩
        simp only [hw, if_pos, hfi] at h
        cases h
        refine ⟨rfl, rfl, rfl, rfl, rfl, rfl, ⟨(rest.get? i).getD fd, rfl, rfl⟩, ?_⟩
        rw [hc1]
        show ((rest.set i fd : List Card) : Multiset Card) + ↑[c] = _
        rw [show ((([c] : List Card)) : Multiset Card) = {c} from Multiset.coe_singleton c,
          hc3]
        exact coe_snoc_cons rest fd
    · simp only [hw, if_neg, if_false] at h
      cases h
      refine ⟨rfl, rfl, rfl, rfl, rfl, rfl, ⟨fd, rfl, rfl⟩, ?_⟩
      exact coe_snoc_cons rest fd

lemma initGame_cards (d : List Card) (s : GameState) (h : initGame d = some s) :
    stateCards s = (d : Multiset Card) := by
  obtain ⟨hp, ha, -, -, -, -, -, hdisc⟩ := initGame_fields d s h
  have h16 : d.take 16 = d.take 8 ++ (d.drop 8).take 8 := by
    have := List.take_add d 8 8
    simpa using this
  calc stateCards s
      = ((s.deck : Multiset Card) + ↑s.discardPile) + (↑s.playerHand + ↑s.aiHand) := by
        simp only [stateCards]; abel
    _ = ((d.drop 16 : List Card) : Multiset Card) +
          (((d.take 8 : List Card) : Multiset Card) + ↑((d.drop 8).take 8)) := by
        rw [hdisc, hp, ha]
    _ = (d : Multiset Card) := by
        rw [Multiset.coe_add, ← h16, Multiset.coe_add, Multiset.coe_eq_coe]
        exact List.perm_append_comm.trans (by rw [List.take_append_drop])

lemma initGame_nonwild (d : List Card) (s : GameState)
    (hperm : List.Perm d createDeck) (h : initGame d = some s) :
    ∃ c, s.discardPile = [c] ∧ s.currentSuit = some c.suit ∧ c.rank ≠ WILD_RANK := by
  unfold initGame at h
  cases hd : d.drop 16 with
  | nil => rw [hd] at h; cases h
  | cons fd rest =>
    rw [hd] at h
    by_cases hw : fd.rank = WILD_RANK
    · cases hfi : findIdxA (fun c => decide (c.rank ≠ WILD_RANK)) rest with
      | none =>
        exfalso
        have hall : ∀ x ∈ rest, x.rank = WILD_RANK := by
          intro x hx
          have hx2 := findIdxA_none (fun c => decide (c.rank ≠ WILD_RANK)) rest hfi x hx
          simpa using hx2
        have hlen : d.length = 52 := by rw [hperm.length_eq]; decide
        have hrest : rest.length = 35 := by
          have hdl : (d.drop 16).length = d.length - 16 := List.length_drop 16 d
          rw [hd] at hdl
          simp only [List.length_cons] at hdl
          omega
        have hcnt : d.countP (fun c => decide (c.rank = WILD_RANK)) = 4 := by
          rw [hperm.countP_eq]; decide
        have hcnt2 : rest.countP (fun c => decide (c.rank = WILD_RANK)) = rest.length :=
          List.countP_eq_length.2 (fun a ha => by simp [hall a ha])
        have hsplit : d.countP (fun c => decide (c.rank = WILD_RANK)) =
            (d.take 16).countP (fun c => decide (c.rank = WILD_RANK)) +
            (d.drop 16).countP (fun c => decide (c.rank = WILD_RANK)) := by
          conv_lhs => rw [← List.take_append_drop 16 d]
          rw [List.countP_append]
        rw [hd, List.countP_cons] at hsplit
        split_ifs at hsplit <;> omega
      | some i =>
        rcases findIdxA_set (fun c => decide (c.rank ≠ WILD_RANK)) fd rest i hfi with
          ⟨c, hc1, hc2, hc3⟩
        simp only [hw, if_pos, hfi] at h
        cases h
        refine ⟨(rest.get? i).getD fd, rfl, rfl, ?_⟩
        rw [hc1]
        simpa using hc2
    · simp only [hw, if_neg, if_false] at h
      cases h
      exact ⟨fd, rfl, rfl, hw⟩

lemma findIdxA_split {α : Type} (p : α → Bool) :
    ∀ (l : List α) (i : Nat), findIdxA p l = some i →
      ∃ pre c post, l = pre ++ c :: post ∧ pre.length = i ∧ p c = true ∧
        (∀ x ∈ pre, p x = false) ∧ l.get? i = some c ∧
        ∀ x, l.set i x = pre ++ x :: post := by
  intro l
  induction l with
  | nil => intro i h; simp [findIdxA] at h
  | cons a l ih =>
    intro i h
    simp only [findIdxA] at h
    by_cases hpa : p a
    · simp [hpa] at h
      subst h
      exact ⟨[], a, l, rfl, rfl, hpa, by simp, rfl, fun x => rfl⟩
    · simp [hpa, Option.map_eq_some'] at h
      rcases h with ⟨j, hj, rfl⟩
      rcases ih j hj with ⟨pre, c, post, hrest, hlen, hpc, hpre, hget, hset⟩
      refine ⟨a :: pre, c, post, by rw [hrest]; rfl, by simp [hlen], hpc, ?_, ?_, ?_⟩
      · intro x hx
        rcases List.mem_cons.1 hx with rfl | hx
        · exact Bool.eq_false_iff.2 hpa
        · exact hpre x hx
      · simpa using hget
      · intro x
        show a :: l.set j x = (a :: pre) ++ x :: post
        rw [hset x]
        rfl

lemma rest_not_all_wild (d : List Card) (fd : Card) (rest : List Card)
    (hperm : List.Perm d createDeck) (hd : d.drop 16 = fd :: rest)
    (hall : ∀ x ∈ rest, x.rank = WILD_RANK) : False := by
  have hlen : d.length = 52 := by rw [hperm.length_eq]; decide
  have hrest : rest.length = 35 := by
    have hdl : (d.drop 16).length = d.length - 16 := List.length_drop 16 d
    rw [hd] at hdl
    simp only [List.length_cons] at hdl
    omega
  have hcnt : d.countP (fun c => decide (c.rank = WILD_RANK)) = 4 := by
    rw [hperm.countP_eq]; decide
  have hcnt2 : rest.countP (fun c => decide (c.rank = WILD_RANK)) = rest.length :=
    List.countP_eq_length.2 (fun a ha => by simp [hall a ha])
  have hsplit : d.countP (fun c => decide (c.rank = WILD_RANK)) =
      (d.take 16).countP (fun c => decide (c.rank = WILD_RANK)) +
      (d.drop 16).countP (fun c => decide (c.rank = WILD_RANK)) := by
    conv_lhs => rw [← List.take_append_drop 16 d]
    rw [List.countP_append]
  rw [hd, List.countP_cons] at hsplit
  split_ifs at hsplit <;> omega

lemma initGame_exact (d : List Card) (s : GameState) (h : initGame d = some s) :
    ∃ fd rest, d.drop 16 = fd :: rest ∧
      (fd.rank ≠ WILD_RANK → s.discardPile = [fd] ∧ s.deck = rest ∧
        s.currentSuit = some fd.suit) ∧
      (fd.rank = WILD_RANK →
        (∃ pre c post, rest = pre ++ c :: post ∧ (∀ x ∈ pre, x.rank = WILD_RANK) ∧
          c.rank ≠ WILD_RANK ∧ s.discardPile = [c] ∧ s.deck = pre ++ fd :: post ∧
          s.currentSuit = some c.suit) ∨
        ((∀ x ∈ rest, x.rank = WILD_RANK) ∧ s.discardPile = [fd] ∧ s.deck = rest)) := by
  unfold initGame at h
  cases hd : d.drop 16 with
  | nil => rw [hd] at h; cases h
  | cons fd rest =>
    rw [hd] at h
    refine ⟨fd, rest, rfl, ?_, ?_⟩
    · intro hnw
      simp only [hnw, if_neg, if_false] at h
      cases h
      exact ⟨rfl, rfl, rfl⟩
    · intro hw
      cases hfi : findIdxA (fun c => decide (c.rank ≠ WILD_RANK)) rest with
      | none =>
        simp only [hw, if_pos, hfi] at h
        cases h
        refine Or.inr ⟨?_, rfl, rfl⟩
        intro x hx
        simpa using findIdxA_none (fun c => decide (c.rank ≠ WILD_RANK)) rest hfi x hx
      | some i =>
        obtain ⟨pre, c, post, hrest, hlen, hpc, hpre, hget, hset⟩ :=
          findIdxA_split (fun c => decide (c.rank ≠ WILD_RANK)) rest i hfi
        simp only [hw, if_pos, hfi] at h
        cases h
        refine Or.inl ⟨pre, c, post, hrest, ?_, by simpa using hpc, ?_, hset fd, ?_⟩
        · intro x hx
          simpa using hpre x hx
        · show [(rest.get? i).getD fd] = [c]
          rw [hget, Option.getD_some]
        · show some ((rest.get? i).getD fd).suit = some c.suit
          rw [hget, Option.getD_some]

lemma stateCards_split (s : GameState) (who : Turn) :
    stateCards s = ((s.deck : Multiset Card) + ↑s.discardPile) +
      (↑(hand s who) + ↑(hand s (other who))) := by
  cases who <;> · simp only [stateCards, hand, other]; abel

lemma createDeck_multiset_nodup : (createDeck : Multiset Card).Nodup :=
  Multiset.coe_nodup.2 createDeck_nodup

lemma hand_singleton (s : GameState) (who : Turn) (card : Card)
    (hmem : card ∈ hand s who)
    (hnd : (hand s who).Nodup)
    (hinj : ∀ x ∈ hand s who, x.id = card.id → x = card)
    (hE : (hand s who).filter (fun c => c.id ≠ card.id) = []) :
    hand s who = [card] := by
  have hall : ∀ x ∈ hand s who, x = card := by
    intro x hx
    by_contra hne
    have hxid : x.id ≠ card.id := fun he => hne (hinj x hx he)
    have : x ∈ (hand s who).filter (fun c => c.id ≠ card.id) :=
      List.mem_filter.2 ⟨hx, by simp [hxid]⟩
    rw [hE] at this
    cases this
  cases hh : hand s who with
  | nil => rw [hh] at hmem; cases hmem
  | cons a t =>
    have ha : a = card := hall a (by rw [hh]; exact List.mem_cons_self a t)
    cases ht : t with
    | nil => rw [ha]
    | cons b t2 =>
      exfalso
      have hb : b = card := hall b (by rw [hh, ht]; simp)
      rw [hh, ht] at hnd
      exact (List.nodup_cons.1 hnd).1 (by rw [ha, hb]; exact List.mem_cons_self _ _)

lemma reach_s0 : Reachable s0 :=
  Reachable.init createDeck s0 (List.Perm.refl createDeck) (by decide)

lemma reach_s1 : Reachable s1 :=
  Reachable.step s0 s1 reach_s0
    (Step.play s0 card4H .player none s1 (by decide) (by decide))

lemma reach_s2 : Reachable s2 :=
  Reachable.step s1 s2 reach_s1
    (Step.play s1 cardAH .player none s2 (by decide) (by decide))

lemma reach_s3 : Reachable s3 :=
  Reachable.step s2 s3 reach_s2
    (Step.play s2 card2H .player none s3 (by decide) (by decide))

lemma reach_s4 : Reachable s4 :=
  Reachable.step s3 s4 reach_s3
    (Step.play s3 card3H .player none s4 (by decide) (by decide))

lemma reach_s5 : Reachable s5 :=
  Reachable.step s4 s5 reach_s4
    (Step.play s4 card5H .player none s5 (by decide) (by decide))

lemma reach_s6 : Reachable s6 :=
  Reachable.step s5 s6 reach_s5
    (Step.play s5 card6H .player none s6 (by decide) (by decide))

lemma reach_s7 : Reachable s7 :=
  Reachable.step s6 s7 reach_s6
    (Step.play s6 card8H .player none s7 (by decide) (by decide))

lemma reach_sWin : Reachable sWin :=
  Reachable.step s7 sWin reach_s7
    (Step.play s7 card7H .player none sWin (by decide) (by decide))

lemma reach_pendX : Reachable pendX :=
  Reachable.step s0 pendX reach_s0
    (Step.play s0 card7H .player none pendX (by decide) (by decide))

lemma bestSuit_spec (h : List Card) :
    (∀ t, suitCount h t ≤ suitCount h (bestSuit h)) ∧
    (∀ t, suitIdx (bestSuit h) < suitIdx t →
      suitCount h t < suitCount h (bestSuit h)) := by
  unfold bestSuit
  simp only [List.foldl_cons, List.foldl_nil]
  split_ifs <;>
    refine ⟨?_, ?_⟩ <;> intro t <;> cases t <;> simp_all [suitIdx] <;> omega

/-- C1 (amended): in every reachable state the four collections hold
cards of the 52-card deck with no duplicates, and while the phase is
`playing` they partition it exactly; a play that empties a hand returns
before the discard push, so game-over states may miss the winning
card(s). -/
theorem claim1_partition_amended (s : GameState) (h : Reachable s) :
    stateCards s ≤ (createDeck : Multiset Card) ∧
      (s.gameState = .playing → stateCards s = (createDeck : Multiset Card)) := by
  induction h with
  | init d s hperm hinit =>
    have hc := initGame_cards d s hinit
    have hdm : (d : Multiset Card) = (createDeck : Multiset Card) :=
      Multiset.coe_eq_coe.2 hperm
    rw [hc, hdm]
    exact ⟨le_refl _, fun _ => rfl⟩
  | step s s' hr hstep ih =>
    cases hstep with
    | play card who ns _ hmem hplay =>
      rcases playCard_some s card who ns s' hplay with rfl | ⟨hleg, rfl⟩
      · exact ih
      · have hle : ((hand s who : List Card) : Multiset Card) ≤ ↑createDeck :=
          le_trans (hand_le_stateCards s who) ih.1
        have hndup : (hand s who).Nodup :=
          Multiset.coe_nodup.1 (Multiset.nodup_of_le hle createDeck_multiset_nodup)
        have hmemCD : ∀ x ∈ hand s who, x ∈ createDeck := fun x hx =>
          Multiset.mem_coe.1 (Multiset.mem_of_le hle (Multiset.mem_coe.2 hx))
        have hinj : ∀ x ∈ hand s who, x.id = card.id → x = card := fun x hx he =>
          createDeck_id_inj x (hmemCD x hx) card (hmemCD card hmem) he
        by_cases hE : (hand s who).filter (fun c => c.id ≠ card.id) = []
        · obtain ⟨hdk, hh, hho, hdp, -, -, hgs, -, -, -⟩ :=
            executePlay_win s card who ns hE
          have h1 : hand s who = [card] := hand_singleton s who card hmem hndup hinj hE
          have hlt : stateCards (executePlay s card who ns) ≤ stateCards s := by
            rw [stateCards_split (executePlay s card who ns) who, stateCards_split s who,
              hdk, hh, hho, hdp, h1]
            exact add_le_add_left (add_le_add_right (by simp) _) _
          refine ⟨le_trans hlt ih.1, fun hpl => ?_⟩
          rw [hgs] at hpl
          exact absurd hpl (by decide)
        · obtain ⟨hdk, hh, hho, hdp, hgs, -, -, -, -⟩ := executePlay_cont s card who ns hE
          have hfe := filter_id_multiset (hand s who) card hmem hndup hinj
          have heq : stateCards (executePlay s card who ns) = stateCards s := by
            rw [stateCards_split (executePlay s card who ns) who, stateCards_split s who,
              hdk, hh, hho, hdp, ← hfe]
            rw [← Multiset.coe_add, Multiset.coe_singleton]
            abel
          rw [heq]
          exact ⟨ih.1, fun hpl => ih.2 (by rw [← hgs]; exact hpl)⟩
    | draw who _ hdraw =>
      obtain ⟨hc, hg⟩ := drawCard_collections s who s' hdraw
      rw [hc]
      exact ⟨ih.1, fun hpl => ih.2 (by rw [← hg]; exact hpl)⟩
    | resolve suit hpick =>
      exact ⟨ih.1, fun hpl => ih.2 hpl⟩

/-- C1 counterexample: `sWin` is reachable (deal the unshuffled deck,
then the player plays 4, A, 2, 3, 5, 6, 8 of hearts and finally the
wild 7 of hearts), its phase is game-over, and the four collections do
not partition the 52 cards: the winning 7 of hearts is in none of
them. -/
theorem claim1_partition_cex :
    Reachable sWin ∧ sWin.gameState = .gameOver ∧
      stateCards sWin ≠ (createDeck : Multiset Card) ∧
      card7H ∉ sWin.deck ∧ card7H ∉ sWin.playerHand ∧ card7H ∉ sWin.aiHand ∧
      card7H ∉ sWin.discardPile :=
  ⟨reach_sWin, by decide, by decide, by decide, by decide, by decide, by decide⟩

/-- C1 witness: the amended invariant evaluated at the freshly dealt
state of the unshuffled deck. -/
theorem claim1_partition_witness :
    stateCards s0 ≤ (createDeck : Multiset Card) ∧
      (s0.gameState = .playing → stateCards s0 = (createDeck : Multiset Card)) :=
  claim1_partition_amended s0
    (Reachable.init createDeck s0 (List.Perm.refl createDeck) (by decide))

/-- C2 counterexample: at `c2pre` the player's legal wild play of the
last card in hand produces game-over with the winner set, but the card
is not pushed onto the discard pile. -/
theorem claim2_winning_play_cex :
    playCard c2pre card7H .player none = some c2post ∧
    c2post.playerHand = [] ∧ c2post.gameState = .gameOver ∧
    c2post.winner = some .player ∧
    c2post.discardPile = c2pre.discardPile ∧
    c2post.discardPile ≠ c2pre.discardPile ++ [card7H] :=
  ⟨by decide, by decide, by decide, by decide, by decide, by decide⟩

/-- C2 (amended): a legal play that empties the actor's hand removes
the card from that hand and sets the phase to game-over and the winner
to the actor, but does not push the card onto the discard pile: the win
path returns before the push, leaving discard pile, deck, the other
hand, the turn, the active suit and the message unchanged. -/
theorem claim2_winning_play_amended (s : GameState) (card : Card) (who : Turn)
    (ns : Option Suit) (hleg : playLegal s card = some true)
    (hE : (hand s who).filter (fun c => c.id ≠ card.id) = []) :
    ∃ s', playCard s card who ns = some s' ∧
      hand s' who = [] ∧ s'.gameState = .gameOver ∧ s'.winner = some who ∧
      s'.discardPile = s.discardPile ∧ s'.deck = s.deck ∧
      hand s' (other who) = hand s (other who) ∧
      s'.turn = s.turn ∧ s'.currentSuit = s.currentSuit ∧ s'.message = s.message := by
  obtain ⟨hdk, hh, hho, hdp, hcs, htn, hgs, hwn, hsp, hmsg⟩ :=
    executePlay_win s card who ns hE
  exact ⟨executePlay s card who ns, playCard_legal s card who ns hleg,
    hh, hgs, hwn, hdp, hdk, hho, htn, hcs, hmsg⟩

/-- C2 witness: the amended statement applied at `c2pre`. -/
theorem claim2_winning_play_witness :
    playLegal c2pre card7H = some true ∧
    (hand c2pre .player).filter (fun c => c.id ≠ card7H.id) = [] ∧
    (∃ s', playCard c2pre card7H .player none = some s' ∧
      hand s' .player = [] ∧ s'.gameState = .gameOver ∧ s'.winner = some .player ∧
      s'.discardPile = c2pre.discardPile ∧ s'.deck = c2pre.deck ∧
      hand s' (other .player) = hand c2pre (other .player) ∧
      s'.turn = c2pre.turn ∧ s'.currentSuit = c2pre.currentSuit ∧
      s'.message = c2pre.message) :=
  ⟨by decide, by decide,
    claim2_winning_play_amended c2pre card7H .player none (by decide) (by decide)⟩

/-- C3: while the phase is playing, a play of a card that is neither
wild, nor of the active suit, nor of the top discard's rank is a silent
no-op: the handler returns the state unchanged in every component. -/
theorem claim3_illegal_play_noop (s : GameState) (card : Card) (who : Turn)
    (ns : Option Suit) (top : Card)
    (hph : s.gameState = .playing)
    (hw : card.rank ≠ WILD_RANK)
    (hsu : some card.suit ≠ s.currentSuit)
    (htop : s.discardPile.getLast? = some top)
    (hrk : card.rank ≠ top.rank) :
    playCard s card who ns = some s := by
  unfold playCard playLegal
  rw [if_neg hw, if_neg hsu, htop]
  simp [hrk]

/-- C3 witness: the spec's own example, the two of spades against the
nine of diamonds with active suit diamonds. -/
theorem claim3_illegal_play_witness :
    c3st.gameState = .playing ∧ card2S.rank ≠ WILD_RANK ∧
    some card2S.suit ≠ c3st.currentSuit ∧
    c3st.discardPile.getLast? = some card9D ∧ card2S.rank ≠ card9D.rank ∧
    playCard c3st card2S .player none = some c3st :=
  ⟨by decide, by decide, by decide, by decide, by decide,
    claim3_illegal_play_noop c3st card2S .player none card9D (by decide) (by decide)
      (by decide) (by decide) (by decide)⟩

/-- C4 (amended): when the player plays a wild card without a suit and
the play does not empty the hand, the turn owner and active suit are
unchanged and the pending flag is set; `resolveWild` then installs the
chosen suit, clears the flag and hands the turn to the AI — the side
that did not just play.  The handlers themselves never consult the
flag, so the blocking of plays while pending is done by the UI, not the
engine: see the counterexample. -/
theorem claim4_wild_pending_amended (s : GameState) (card : Card)
    (hw : card.rank = WILD_RANK)
    (hE : s.playerHand.filter (fun c => c.id ≠ card.id) ≠ []) :
    ∃ s', playCard s card .player none = some s' ∧
      s'.turn = s.turn ∧ s'.showSuitPicker = true ∧ s'.currentSuit = s.currentSuit ∧
      ∀ suit, (resolveWild s' suit).currentSuit = some suit ∧
        (resolveWild s' suit).showSuitPicker = false ∧
        (resolveWild s' suit).turn = other .player := by
  have hleg : playLegal s card = some true := by unfold playLegal; rw [if_pos hw]
  have hE' : (hand s .player).filter (fun c => c.id ≠ card.id) ≠ [] := hE
  obtain ⟨hdk, hh, hho, hdp, hgs, hwn, hpend, hsome, hnw⟩ :=
    executePlay_cont s card .player none hE'
  obtain ⟨ht, hsp, hcs, hmsg⟩ := hpend hw rfl
  exact ⟨executePlay s card .player none, playCard_legal s card .player none hleg,
    ht, hsp, hcs, fun suit => ⟨rfl, rfl, rfl⟩⟩

/-- C4 counterexample: `pendX` is a reachable pending-wild state (the
player has played the wild 7 of hearts with no suit chosen, turn still
the player's), yet a play fired before any `resolveWild` goes through
and changes the state: `playCard` never reads the pending flag. -/
theorem claim4_wild_pending_cex :
    Reachable pendX ∧ pendX.showSuitPicker = true ∧ pendX.turn = .player ∧
    playCard pendX cardAD .ai none = some pendY ∧ pendY ≠ pendX :=
  ⟨reach_pendX, by decide, by decide, by decide, by decide⟩

/-- C4 witness: the amended statement applied at the freshly dealt
state, playing the wild 7 of hearts. -/
theorem claim4_wild_pending_witness :
    card7H.rank = WILD_RANK ∧
    s0.playerHand.filter (fun c => c.id ≠ card7H.id) ≠ [] ∧
    (∃ s', playCard s0 card7H .player none = some s' ∧
      s'.turn = s0.turn ∧ s'.showSuitPicker = true ∧ s'.currentSuit = s0.currentSuit ∧
      ∀ suit, (resolveWild s' suit).currentSuit = some suit ∧
        (resolveWild s' suit).showSuitPicker = false ∧
        (resolveWild s' suit).turn = other .player) :=
  ⟨by decide, by decide, claim4_wild_pending_amended s0 card7H (by decide) (by decide)⟩

/-- C5 (amended): game-over is not terminal at the handler level: with
a nonempty deck either side's draw still mutates the state, and a legal
play of a held card still mutates the state.  In the running app the
terminality holds because the UI stops dispatching intents once the
phase is game-over (the overlay blocks input and the AI effect checks
the phase), not because the handlers refuse them. -/
theorem claim5_terminal_amended (s : GameState) (who : Turn)
    (hph : s.gameState = .gameOver) (hdisc : s.discardPile ≠ []) :
    (s.deck ≠ [] → ∃ s', drawCard s who = some s' ∧ s' ≠ s) ∧
    (∀ card, card ∈ hand s who → playLegal s card = some true →
      ∃ s', playCard s card who none = some s' ∧ s' ≠ s) := by
  constructor
  · intro hdk
    cases hd : s.deck with
    | nil => exact absurd hd hdk
    | cons c rest =>
      by_cases h1 : c.rank = WILD_RANK ∨ some c.suit = s.currentSuit
      · have heq : drawCard s who = some (addDraw s who c rest) := by
          unfold drawCard
          rw [hd]
          rcases h1 with h1 | h1 <;> simp [h1]
        refine ⟨addDraw s who c rest, heq, fun hcon => ?_⟩
        have hh := congrArg GameState.deck hcon
        rw [(addDraw_fields s who c rest).1, hd] at hh
        have := congrArg List.length hh
        simp at this
      · cases htop : s.discardPile.getLast? with
        | none => exact absurd (List.getLast?_eq_none_iff.1 htop) hdisc
        | some top =>
          rw [drawCard_cons s who c rest top hd htop]
          refine ⟨_, rfl, fun hcon => ?_⟩
          have hdeck : (if c.rank = WILD_RANK ∨ some c.suit = s.currentSuit ∨
              c.rank = top.rank then addDraw s who c rest
              else { addDraw s who c rest with turn := other who }).deck = rest := by
            split
            · exact (addDraw_fields s who c rest).1
            · exact (addDraw_fields s who c rest).1
          have hh := congrArg GameState.deck hcon
          rw [hdeck, hd] at hh
          have := congrArg List.length hh
          simp at this
  · intro card hmem hleg
    by_cases hE : (hand s who).filter (fun c => c.id ≠ card.id) = []
    · obtain ⟨hdk, hh, hho, hdp, hcs, htn, hgs, hwn, hsp, hmsg⟩ :=
        executePlay_win s card who none hE
      refine ⟨_, playCard_legal s card who none hleg, fun hcon => ?_⟩
      rw [hcon] at hh
      rw [hh] at hmem
      cases hmem
    · obtain ⟨hdk, hh, hho, hdp, hgs, hwn, hpend, hsome, hnw⟩ :=
        executePlay_cont s card who none hE
      refine ⟨_, playCard_legal s card who none hleg, fun hcon => ?_⟩
      rw [hcon] at hdp
      have := congrArg List.length hdp
      simp at this

/-- C5 counterexample: `sWin` is a reachable game-over state (the
player has just won), yet the AI's play of the nine of hearts — legal
against the active suit — still goes through and changes the state. -/
theorem claim5_terminal_cex :
    Reachable sWin ∧ sWin.gameState = .gameOver ∧
    playCard sWin card9H .ai none = some postWin ∧ postWin ≠ sWin :=
  ⟨reach_sWin, by decide, by decide, by decide⟩

/-- C5 witness: the amended statement applied at the reachable
game-over state `sWin`, drawing for the AI. -/
theorem claim5_terminal_witness :
    sWin.gameState = .gameOver ∧ sWin.discardPile ≠ [] ∧ sWin.deck ≠ [] ∧
    (∃ s', drawCard sWin .ai = some s' ∧ s' ≠ sWin) :=
  ⟨by decide, by decide, by decide,
    (claim5_terminal_amended sWin .ai (by decide) (by decide)).1 (by decide)⟩

/-- C6: dealt from any shuffle of the full 52-card deck, the game
starts with the top 8 cards as the player's hand and the next 8 as the
AI's, and the 17th card turned up as the initial discard; a non-wild
flip keeps the rest of the deck in order, while a wild flip puts the
FIRST non-wild card of the remainder face up with the wild taking
exactly its place, so the face-up discard is never wild; afterwards the
active suit equals the discard's suit, the player is to move, and the
phase is playing. -/
theorem claim6_deal_spec (d : List Card) (s : GameState)
    (hperm : List.Perm d createDeck) (hinit : initGame d = some s) :
    s.playerHand = d.take 8 ∧ s.aiHand = (d.drop 8).take 8 ∧
    s.playerHand.length = 8 ∧ s.aiHand.length = 8 ∧
    (∃ c, s.discardPile = [c] ∧ c.rank ≠ WILD_RANK ∧ s.currentSuit = some c.suit) ∧
    s.turn = .player ∧ s.gameState = .playing ∧ s.winner = none ∧
    s.showSuitPicker = false ∧
    (∃ fd rest, d.drop 16 = fd :: rest ∧
      (fd.rank ≠ WILD_RANK → s.discardPile = [fd] ∧ s.deck = rest ∧
        s.currentSuit = some fd.suit) ∧
      (fd.rank = WILD_RANK → ∃ pre c post, rest = pre ++ c :: post ∧
        (∀ x ∈ pre, x.rank = WILD_RANK) ∧ c.rank ≠ WILD_RANK ∧
        s.discardPile = [c] ∧ s.deck = pre ++ fd :: post ∧
        s.currentSuit = some c.suit)) ∧
    (s.deck : Multiset Card) + (s.discardPile : Multiset Card) =
      ((d.drop 16 : List Card) : Multiset Card) ∧
    stateCards s = (d : Multiset Card) := by
  obtain ⟨hp, ha, ht, hg, hw, hsp, ⟨c, hdp, hcs⟩, hdd⟩ := initGame_fields d s hinit
  obtain ⟨c2, hdp2, hcs2, hw2⟩ := initGame_nonwild d s hperm hinit
  obtain ⟨fd, rest, hdrop, hnonwild, hwild⟩ := initGame_exact d s hinit
  have hlen : d.length = 52 := by rw [hperm.length_eq]; decide
  have hcc : c2 = c := by
    rw [hdp] at hdp2
    simpa using hdp2.symm
  refine ⟨hp, ha, ?_, ?_, ⟨c, hdp, by rw [← hcc]; exact hw2, hcs⟩, ht, hg, hw, hsp,
    ⟨fd, rest, hdrop, hnonwild, fun hwf => ?_⟩, hdd, initGame_cards d s hinit⟩
  · rw [hp, List.length_take]
    omega
  · rw [ha, List.length_take, List.length_drop]
    omega
  · rcases hwild hwf with hsome | ⟨hall, -, -⟩
    · exact hsome
    · exact (rest_not_all_wild d fd rest hperm hdrop hall).elim

/-- C6 witness: the deal of the unshuffled deck, whose 17th card is the
non-wild 4 of diamonds. -/
theorem claim6_deal_witness :
    List.Perm createDeck createDeck ∧ initGame createDeck = some s0 ∧
    (s0.playerHand = createDeck.take 8 ∧ s0.aiHand = (createDeck.drop 8).take 8 ∧
      s0.playerHand.length = 8 ∧ s0.aiHand.length = 8 ∧
      (∃ c, s0.discardPile = [c] ∧ c.rank ≠ WILD_RANK ∧ s0.currentSuit = some c.suit) ∧
      s0.turn = .player ∧ s0.gameState = .playing ∧ s0.winner = none ∧
      s0.showSuitPicker = false ∧
      (∃ fd rest, createDeck.drop 16 = fd :: rest ∧
        (fd.rank ≠ WILD_RANK → s0.discardPile = [fd] ∧ s0.deck = rest ∧
          s0.currentSuit = some fd.suit) ∧
        (fd.rank = WILD_RANK → ∃ pre c post, rest = pre ++ c :: post ∧
          (∀ x ∈ pre, x.rank = WILD_RANK) ∧ c.rank ≠ WILD_RANK ∧
          s0.discardPile = [c] ∧ s0.deck = pre ++ fd :: post ∧
          s0.currentSuit = some c.suit)) ∧
      (s0.deck : Multiset Card) + (s0.discardPile : Multiset Card) =
        ((createDeck.drop 16 : List Card) : Multiset Card) ∧
      stateCards s0 = (createDeck : Multiset Card)) :=
  ⟨List.Perm.refl createDeck, by decide,
    claim6_deal_spec createDeck s0 (List.Perm.refl createDeck) (by decide)⟩

/-- C7: `drawCard` skips the turn (and moves no card) on an empty deck;
otherwise it moves the front deck card into the actor's hand, leaves
every other collection alone, and passes the turn to the other side
exactly when the drawn card is not playable (not wild, suit different
from the active suit, rank different from the top discard's). -/
theorem claim7_draw_spec (s : GameState) (who : Turn) :
    (s.deck = [] → drawCard s who =
      some { s with message := "Deck is empty! Turn skipped.", turn := other who }) ∧
    (∀ c rest top, s.deck = c :: rest → s.discardPile.getLast? = some top →
      ∃ s', drawCard s who = some s' ∧ s'.deck = rest ∧
        hand s' who = hand s who ++ [c] ∧
        hand s' (other who) = hand s (other who) ∧
        s'.discardPile = s.discardPile ∧ s'.currentSuit = s.currentSuit ∧
        s'.gameState = s.gameState ∧ s'.winner = s.winner ∧
        s'.showSuitPicker = s.showSuitPicker ∧
        s'.turn = (if c.rank = WILD_RANK ∨ some c.suit = s.currentSuit ∨
          c.rank = top.rank then s.turn else other who)) := by
  constructor
  · intro hd
    exact drawCard_nil s who hd
  · intro c rest top hd htop
    rw [drawCard_cons s who c rest top hd htop]
    obtain ⟨f1, f2, f3, f4, f5, f6, f7, f8, f9⟩ := addDraw_fields s who c rest
    by_cases hc : c.rank = WILD_RANK ∨ some c.suit = s.currentSuit ∨ c.rank = top.rank
    · rw [if_pos hc]
      exact ⟨addDraw s who c rest, rfl, f1, f2, f3, f4, f5, f7, f8, f9,
        by rw [if_pos hc]; exact f6⟩
    · rw [if_neg hc]
      refine ⟨{ addDraw s who c rest with turn := other who }, rfl, f1, f2, f3, f4, f5,
        f7, f8, f9, ?_⟩
      rw [if_neg hc]

/-- C7 witness: drawing the unplayable two of spades against diamonds
and a nine passes the turn to the AI. -/
theorem claim7_draw_witness :
    c7st.deck = [card2S] ∧ c7st.discardPile.getLast? = some card9D ∧
    (∃ s', drawCard c7st .player = some s' ∧ s'.deck = [] ∧
      hand s' .player = hand c7st .player ++ [card2S] ∧
      hand s' (other .player) = hand c7st (other .player) ∧
      s'.discardPile = c7st.discardPile ∧ s'.currentSuit = c7st.currentSuit ∧
      s'.gameState = c7st.gameState ∧ s'.winner = c7st.winner ∧
      s'.showSuitPicker = c7st.showSuitPicker ∧
      s'.turn = (if card2S.rank = WILD_RANK ∨ some card2S.suit = c7st.currentSuit ∨
        card2S.rank = card9D.rank then c7st.turn else other .player)) :=
  ⟨by decide, by decide,
    (claim7_draw_spec c7st .player).2 card2S [] card9D (by decide) (by decide)⟩

/-- C8 (amended): the AI plays the first non-wild card in hand order
matching the active suit or the top discard's rank; failing that it
plays its first wild, declaring the suit with the maximal non-wild
count, ties broken towards the LAST suit reaching the maximum in the
fixed suit enumeration order (the source's reduce keeps the later suit
on a tie); failing that it draws. -/
theorem claim8_ai_decision_amended (s : GameState) (top : Card)
    (htop : s.discardPile.getLast? = some top) :
    (∀ c ∈ s.aiHand,
      (c.rank ≠ WILD_RANK ∧ (some c.suit = s.currentSuit ∨ c.rank = top.rank)) →
      ∃ c0 pre post, s.aiHand = pre ++ c0 :: post ∧
        (c0.rank ≠ WILD_RANK ∧ (some c0.suit = s.currentSuit ∨ c0.rank = top.rank)) ∧
        (∀ x ∈ pre,
          ¬(x.rank ≠ WILD_RANK ∧ (some x.suit = s.currentSuit ∨ x.rank = top.rank))) ∧
        aiMove s = playCard s c0 .ai none) ∧
    ((∀ c ∈ s.aiHand,
        ¬(c.rank ≠ WILD_RANK ∧ (some c.suit = s.currentSuit ∨ c.rank = top.rank))) →
      ∀ w ∈ s.aiHand, w.rank = WILD_RANK →
      ∃ w0 pre post, s.aiHand = pre ++ w0 :: post ∧ w0.rank = WILD_RANK ∧
        (∀ x ∈ pre, x.rank ≠ WILD_RANK) ∧
        aiMove s = playCard s w0 .ai (some (bestSuit s.aiHand)) ∧
        (∀ t, suitCount s.aiHand t ≤ suitCount s.aiHand (bestSuit s.aiHand)) ∧
        (∀ t, suitIdx (bestSuit s.aiHand) < suitIdx t →
          suitCount s.aiHand t < suitCount s.aiHand (bestSuit s.aiHand))) ∧
    ((∀ c ∈ s.aiHand,
        ¬(c.rank ≠ WILD_RANK ∧ (some c.suit = s.currentSuit ∨ c.rank = top.rank)) ∧
        c.rank ≠ WILD_RANK) →
      aiMove s = drawCard s .ai) := by
  refine ⟨?_, ?_, ?_⟩
  · intro c hc hpc
    cases hf : s.aiHand.find? (fun c =>
        decide (c.rank ≠ WILD_RANK ∧
          (some c.suit = s.currentSuit ∨ c.rank = top.rank))) with
    | none =>
      exact absurd hpc (by simpa using List.find?_eq_none.1 hf c hc)
    | some c0 =>
      obtain ⟨pre, post, heq, hp0, hpre⟩ := find?_split _ s.aiHand c0 hf
      refine ⟨c0, pre, post, heq, by simpa using hp0,
        fun x hx => by simpa using hpre x hx, ?_⟩
      unfold aiMove
      rw [htop]
      dsimp only
      rw [hf]
  · intro hnone w hw hww
    have hfn : s.aiHand.find? (fun c =>
        decide (c.rank ≠ WILD_RANK ∧
          (some c.suit = s.currentSuit ∨ c.rank = top.rank))) = none :=
      List.find?_eq_none.2 (fun x hx => by simpa using hnone x hx)
    cases hfw : s.aiHand.find? (fun c => decide (c.rank = WILD_RANK)) with
    | none =>
      exact absurd hww (by simpa using List.find?_eq_none.1 hfw w hw)
    | some w0 =>
      obtain ⟨pre, post, heq, hp0, hpre⟩ := find?_split _ s.aiHand w0 hfw
      have hbs := bestSuit_spec s.aiHand
      refine ⟨w0, pre, post, heq, by simpa using hp0,
        fun x hx => by simpa using hpre x hx, ?_, hbs.1, hbs.2⟩
      unfold aiMove
      rw [htop]
      dsimp only
      rw [hfn, hfw]
  · intro hall
    have hfn : s.aiHand.find? (fun c =>
        decide (c.rank ≠ WILD_RANK ∧
          (some c.suit = s.currentSuit ∨ c.rank = top.rank))) = none :=
      List.find?_eq_none.2 (fun x hx => by simpa using (hall x hx).1)
    have hfw : s.aiHand.find? (fun c => decide (c.rank = WILD_RANK)) = none :=
      List.find?_eq_none.2 (fun x hx => by simpa using (hall x hx).2)
    unfold aiMove
    rw [htop]
    dsimp only
    rw [hfn, hfw]

/-- C8 counterexample: at `c8pre` the AI holds no playable normal card
and one wild; the non-wild suit counts tie, one heart and one diamond.
The claim's tie-break — the first suit reaching the maximum in the
enumeration order — picks hearts, but the engine plays the wild
declaring diamonds. -/
theorem claim8_ai_decision_cex :
    aiMove c8pre = some c8post ∧
    c8post.currentSuit = some Suit.diamonds ∧
    suitCount c8pre.aiHand Suit.hearts = suitCount c8pre.aiHand Suit.diamonds ∧
    specFirstMaxSuit c8pre.aiHand = Suit.hearts ∧
    bestSuit c8pre.aiHand = Suit.diamonds ∧
    bestSuit c8pre.aiHand ≠ specFirstMaxSuit c8pre.aiHand :=
  ⟨by decide, by decide, by decide, by decide, by decide, by decide⟩

/-- C8 witness: the spec's worked example — opponent hand 3 of hearts,
7 of spades, 5 of hearts, active suit clubs, discard-top rank 3: the
first branch fires and plays the 3 of hearts, not the wild. -/
theorem claim8_ai_decision_witness :
    c8w.discardPile.getLast? = some card3D ∧ card3H ∈ c8w.aiHand ∧
    (card3H.rank ≠ WILD_RANK ∧
      (some card3H.suit = c8w.currentSuit ∨ card3H.rank = card3D.rank)) ∧
    (∃ c0 pre post, c8w.aiHand = pre ++ c0 :: post ∧
      (c0.rank ≠ WILD_RANK ∧ (some c0.suit = c8w.currentSuit ∨ c0.rank = card3D.rank)) ∧
      (∀ x ∈ pre,
        ¬(x.rank ≠ WILD_RANK ∧ (some x.suit = c8w.currentSuit ∨ x.rank = card3D.rank))) ∧
      aiMove c8w = playCard c8w c0 .ai none) :=
  ⟨by decide, by decide, by decide,
    (claim8_ai_decision_amended c8w card3D (by decide)).1 card3H (by decide) (by decide)⟩

/-- C9 (amended): `playCard` checks only the wild/suit/rank legality —
not turn ownership, not the pending-wild flag, not hand membership:
while the phase is playing, any legal play pushes the card onto the
discard pile and filters the named actor's hand by the card's id,
provided the filtered hand is nonempty; when the actor does not hold
the card (by id) the hand is unchanged and the card appears on the
discard pile anyway.  A play whose removal empties the hand instead
takes the win path and skips the push (see the counterexample). -/
theorem claim9_no_precondition_amended (s : GameState) (card : Card) (who : Turn)
    (ns : Option Suit)
    (hph : s.gameState = .playing)
    (hleg : playLegal s card = some true)
    (hE : (hand s who).filter (fun c => c.id ≠ card.id) ≠ []) :
    ∃ s', playCard s card who ns = some s' ∧
      s'.discardPile = s.discardPile ++ [card] ∧
      hand s' who = (hand s who).filter (fun c => c.id ≠ card.id) ∧
      hand s' (other who) = hand s (other who) ∧
      s'.deck = s.deck ∧
      ((∀ c ∈ hand s who, c.id ≠ card.id) → hand s' who = hand s who) := by
  obtain ⟨hdk, hh, hho, hdp, hgs, hwn, hpend, hsome, hnw⟩ :=
    executePlay_cont s card who ns hE
  refine ⟨_, playCard_legal s card who ns hleg, hdp, hh, hho, hdk, fun hnone => ?_⟩
  rw [hh]
  exact List.filter_eq_self.2 (fun x hx => by simp [hnone x hx])

/-- C9 counterexample: at `c9pre` the wild 7 of spades passes the
legality test in the playing phase, yet the call does not push it onto
the discard pile: removing it empties the player's hand, so the win
path returns before the push. -/
theorem claim9_no_precondition_cex :
    c9pre.gameState = .playing ∧ playLegal c9pre card7S = some true ∧
    playCard c9pre card7S .player none = some c9post ∧
    c9post.discardPile = c9pre.discardPile ∧
    c9post.discardPile ≠ c9pre.discardPile ++ [card7S] :=
  ⟨by decide, by decide, by decide, by decide, by decide⟩

/-- C9 witness: at `c8pre` it is the AI's turn and the player does not
hold the two of clubs, yet a player's play of it is legal against the
club active suit and goes through: the card lands on the discard pile
and the player's hand is untouched. -/
theorem claim9_no_precondition_witness :
    c8pre.gameState = .playing ∧ playLegal c8pre card2C = some true ∧
    (hand c8pre .player).filter (fun c => c.id ≠ card2C.id) ≠ [] ∧
    c8pre.turn = .ai ∧ card2C ∉ hand c8pre .player ∧
    (∃ s', playCard c8pre card2C .player none = some s' ∧
      s'.discardPile = c8pre.discardPile ++ [card2C] ∧
      hand s' .player = (hand c8pre .player).filter (fun c => c.id ≠ card2C.id) ∧
      hand s' (other .player) = hand c8pre (other .player) ∧
      s'.deck = c8pre.deck ∧
      ((∀ c ∈ hand c8pre .player, c.id ≠ card2C.id) →
        hand s' .player = hand c8pre .player)) :=
  ⟨by decide, by decide, by decide, by decide, by decide,
    claim9_no_precondition_amended c8pre card2C .player none (by decide) (by decide)
      (by decide)⟩

/-- C10: in the Sum-Match model (built from the spec, the game's source
being absent from the snapshot), with status playing and the post-flip
selection summing exactly to the target, toggleCell awards
length * 10 * level points, clears the selection, installs the injected
freshly drawn target (in [10,25] when the draw is), and removes exactly
the selected cells from the board: no surviving or spawned cell carries
a selected id, survivors are kept (bumped a row and followed by the
spawned row in classic mode, unchanged in timed mode). -/
theorem claim10_summatch_toggle (s : SMState) (cid : Nat) (newTarget : Nat)
    (newRow : List SMCell)
    (hst : s.status = .playing)
    (hsum : smSelSum s.board (smFlip s.selection cid) = s.target)
    (hlo : 10 ≤ newTarget) (hhi : newTarget ≤ 25)
    (hfresh : ∀ c ∈ newRow, ∀ b ∈ s.board, c.id ≠ b.id) :
    (toggleCell s cid newTarget newRow).score =
      s.score + (smFlip s.selection cid).length * 10 * s.level ∧
    (toggleCell s cid newTarget newRow).selection = [] ∧
    (toggleCell s cid newTarget newRow).target = newTarget ∧
    10 ≤ (toggleCell s cid newTarget newRow).target ∧
    (toggleCell s cid newTarget newRow).target ≤ 25 ∧
    (∀ b ∈ s.board, b.id ∈ smFlip s.selection cid →
      ∀ c ∈ (toggleCell s cid newTarget newRow).board, c.id ≠ b.id) ∧
    (s.mode = .timed → (toggleCell s cid newTarget newRow).board =
      s.board.filter (fun c => c.id ∉ smFlip s.selection cid)) ∧
    (s.mode = .classic → (toggleCell s cid newTarget newRow).board =
      (s.board.filter (fun c => c.id ∉ smFlip s.selection cid)).map smBump ++ newRow) := by
  have hcond : ¬(s.status ≠ SMStatus.playing) := fun hcon => hcon hst
  have hred : toggleCell s cid newTarget newRow =
      { s with
        board :=
          match s.mode with
          | .classic => (s.board.filter
              (fun c => c.id ∉ smFlip s.selection cid)).map smBump ++ newRow
          | .timed => s.board.filter (fun c => c.id ∉ smFlip s.selection cid)
        selection := []
        target := newTarget
        score := s.score + (smFlip s.selection cid).length * 10 * s.level
        level := if s.score > s.level * 500 then s.level + 1 else s.level
        countdown :=
          match s.mode with
          | .classic => s.countdown
          | .timed => max 5 (15 - s.level / 2) } := by
    unfold toggleCell
    rw [if_neg hcond]
    simp only [hsum, if_pos]
  rw [hred]
  refine ⟨rfl, rfl, rfl, hlo, hhi, ?_, ?_, ?_⟩
  · intro b hb hbsel c hc
    cases hm : s.mode
    · rw [hm] at hc
      simp only [List.mem_append, List.mem_map, List.mem_filter] at hc
      rcases hc with ⟨c', ⟨hc'm, hc'id⟩, rfl⟩ | hcr
      · intro hcon
        have : c'.id ∉ smFlip s.selection cid := by simpa using hc'id
        exact this (by rw [show (smBump c').id = c'.id from rfl] at hcon; rw [hcon]; exact hbsel)
      · exact hfresh c hcr b hb
    · rw [hm] at hc
      simp only [List.mem_filter] at hc
      intro hcon
      have : c.id ∉ smFlip s.selection cid := by simpa using hc.2
      exact this (by rw [hcon]; exact hbsel)
  · intro hm
    rw [hm]
  · intro hm
    rw [hm]

/-- C10 witness: the spec's worked example — cells valued 3, 5 and 2,
target 10, toggling the third cell completes the sum and scores
3 * 10 * 1 = 30 points. -/
theorem claim10_summatch_witness :
    smW.status = .playing ∧
    smSelSum smW.board (smFlip smW.selection 2) = smW.target ∧
    (10 : Nat) ≤ 12 ∧ (12 : Nat) ≤ 25 ∧
    ((toggleCell smW 2 12 []).score =
        smW.score + (smFlip smW.selection 2).length * 10 * smW.level ∧
      (toggleCell smW 2 12 []).selection = [] ∧
      (toggleCell smW 2 12 []).target = 12 ∧
      10 ≤ (toggleCell smW 2 12 []).target ∧
      (toggleCell smW 2 12 []).target ≤ 25 ∧
      (∀ b ∈ smW.board, b.id ∈ smFlip smW.selection 2 →
        ∀ c ∈ (toggleCell smW 2 12 []).board, c.id ≠ b.id) ∧
      (smW.mode = .timed → (toggleCell smW 2 12 []).board =
        smW.board.filter (fun c => c.id ∉ smFlip smW.selection 2)) ∧
      (smW.mode = .classic → (toggleCell smW 2 12 []).board =
        (smW.board.filter (fun c => c.id ∉ smFlip smW.selection 2)).map smBump ++ [])) :=
  ⟨by decide, by decide, by decide, by decide,
    claim10_summatch_toggle smW 2 12 [] (by decide) (by decide) (by decide) (by decide)
      (by simp)⟩

end Jack77
